import Mathlib

/-!
Verification of the texture-atlas packing core of the repository
(`src/Tilers/CityTiler/atlas.py` and the texture path of
`src/Tilers/CityTiler/citym_cityobject.py`).

The Python classes `Rectangle` and `Node` and the functions
`computeArea`, `multipleOf2` and `computeAtlasTree` are shallowly
embedded below.  Python integers become `Int`/`Nat`; the imperative,
mutating `Node.insert` becomes the state-passing function
`Node.insertM`, which returns the post-state of the receiver together
with the success flag (`true` = Python returned `self`, `false` =
Python returned `None`); `Node.insert` is the return-value view
(`Option Node`).  Pixel-footprint semantics: a `Rectangle` of width
`right - left` holds an image pasted at `(left, top)`, which covers the
pixel columns `left .. right - 1` and rows `top .. bottom - 1`, i.e.
the half-open box `[left, right) × [top, bottom)`.
-/

/-- A decoded pillow image: only its pixel size (`img.size` in the
source) is relevant to the packing algorithm. -/
structure Img where
  w : Nat
  h : Nat
deriving DecidableEq, Repr

/-- The `Rectangle` class of atlas.py: position given by
`left`, `top`, `right`, `bottom`. -/
structure Rectangle where
  left : Int
  top : Int
  right : Int
  bottom : Int
deriving DecidableEq, Repr

/-- `self.width = right - left` (set in `Rectangle.__init__`). -/
def Rectangle.width (r : Rectangle) : Int := r.right - r.left

/-- `self.height = bottom - top` (set in `Rectangle.__init__`). -/
def Rectangle.height (r : Rectangle) : Int := r.bottom - r.top

/-- `Rectangle.fits`: the image is no larger than the rectangle. -/
def Rectangle.fits (r : Rectangle) (img : Img) : Bool :=
  (img.w : Int) ≤ r.width && (img.h : Int) ≤ r.height

/-- `Rectangle.perfect_fits`: the image has exactly the rectangle's size. -/
def Rectangle.perfect_fits (r : Rectangle) (img : Img) : Bool :=
  ((img.w : Int) == r.width) && ((img.h : Int) == r.height)

/-- The `Node` class of atlas.py.  A node is a leaf iff both children
are absent (`isLeaf`); a leaf optionally holds a placed image and the
`building_id` it belongs to.  The only states reachable from
`Node(rect)` through `insert` are a leaf or a node with two children,
so the embedding uses a two-variant tree. -/
inductive Node where
  | leaf (rect : Rectangle) (image : Option Img) (building_id : Option Nat)
  | node (rect : Rectangle) (child0 child1 : Node)
deriving DecidableEq, Repr

/-- The `rect` field of a node. -/
def Node.rect : Node → Rectangle
  | .leaf r _ _ => r
  | .node r _ _ => r

/-- First child (`self.child[0]`); on a leaf, the node itself. -/
def Node.child0 : Node → Node
  | .leaf r i b => .leaf r i b
  | .node _ c0 _ => c0

/-- Second child (`self.child[1]`); on a leaf, the node itself. -/
def Node.child1 : Node → Node
  | .leaf r i b => .leaf r i b
  | .node _ _ c1 => c1

/-- Termination measure for the leaf-insertion recursion: how many of
the two dimensions of `r` differ from the image's.  Each split makes
the freshly created first child agree with the image on the split
axis, so the measure strictly decreases. -/
def mismatch (r : Rectangle) (img : Img) : Nat :=
  (if r.width = (img.w : Int) then 0 else 1)
    + (if r.height = (img.h : Int) then 0 else 1)

/-- The leaf branch of `Node.insert` (atlas.py lines 108-164), as a
state-passing function: result is the post-state of `self` and the
success flag.  In the split case the source discards the return value
of `self.child[0].insert(img, building_id)` (line 163) and keeps the
mutated child object, which here is the first component of the
recursive call. -/
def insertLeaf (rect : Rectangle) (image : Option Img) (building_id : Option Nat)
    (img : Img) (id : Nat) : Node × Bool :=
  if image ≠ none then
    (.leaf rect image building_id, false)
  else if h1 : rect.perfect_fits img then
    (.leaf rect (some img) (some id), true)
  else if h2 : rect.fits img = false then
    (.leaf rect image building_id, false)
  else
    -- dw = rect.width - img.w, dh = rect.height - img.h; split on dw >= dh
    if hd : rect.width - (img.w : Int) ≥ rect.height - (img.h : Int) then
      let rA : Rectangle := ⟨rect.left, rect.top, rect.left + (img.w : Int), rect.bottom⟩
      let rB : Rectangle := ⟨rect.left + (img.w : Int) + 1, rect.top, rect.right, rect.bottom⟩
      (.node rect (insertLeaf rA none none img id).1 (.leaf rB none none), true)
    else
      let rA : Rectangle := ⟨rect.left, rect.top, rect.right, rect.top + (img.h : Int)⟩
      let rB : Rectangle := ⟨rect.left, rect.top + (img.h : Int) + 1, rect.right, rect.bottom⟩
      (.node rect (insertLeaf rA none none img id).1 (.leaf rB none none), true)
termination_by mismatch rect img
decreasing_by
  · simp only [Rectangle.perfect_fits, Bool.and_eq_true, beq_iff_eq, not_and_or] at h1
    have hf : rect.fits img = true := by
      revert h2; cases rect.fits img <;> simp
    simp only [Rectangle.fits, Bool.and_eq_true, decide_eq_true_eq] at hf
    simp only [mismatch, Rectangle.width, Rectangle.height]
    simp only [Rectangle.width, Rectangle.height] at h1 hf hd
    have hA : rect.left + (img.w : Int) - rect.left = (img.w : Int) := by omega
    have hw : ¬ (rect.right - rect.left = (img.w : Int)) := by omega
    rw [if_pos hA, if_neg hw]
    by_cases hh : rect.bottom - rect.top = (img.h : Int) <;> simp [hh]
  · simp only [Rectangle.perfect_fits, Bool.and_eq_true, beq_iff_eq, not_and_or] at h1
    have hf : rect.fits img = true := by
      revert h2; cases rect.fits img <;> simp
    simp only [Rectangle.fits, Bool.and_eq_true, decide_eq_true_eq] at hf
    simp only [mismatch, Rectangle.width, Rectangle.height]
    simp only [Rectangle.width, Rectangle.height, not_le] at h1 hf hd
    have hA : rect.top + (img.h : Int) - rect.top = (img.h : Int) := by omega
    have hh : ¬ (rect.bottom - rect.top = (img.h : Int)) := by omega
    rw [if_pos hA, if_neg hh]
    by_cases hw : rect.right - rect.left = (img.w : Int) <;> simp [hw]

/-- `Node.insert` (atlas.py lines 87-164) as a state-passing function:
the first component is the post-state of `self`, the second is `true`
when the Python method returns `self` and `false` when it returns
`None`.  On an internal node the first child is tried, then the
second; the post-states of failed children are threaded through, just
as the mutated Python objects are kept. -/
def Node.insertM : Node → Img → Nat → Node × Bool
  | .leaf rect image building_id, img, id => insertLeaf rect image building_id img id
  | .node rect c0 c1, img, id =>
    let r0 := Node.insertM c0 img id
    if r0.2 then (.node rect r0.1 c1, true)
    else
      let r1 := Node.insertM c1 img id
      if r1.2 then (.node rect r0.1 r1.1, true)
      else (.node rect r0.1 r1.1, false)

/-- The return value of `Node.insert`: the (mutated) node on success,
`None` on failure. -/
def Node.insert (n : Node) (img : Img) (id : Nat) : Option Node :=
  if (Node.insertM n img id).2 then some (Node.insertM n img id).1 else none

/-- The `for key, image in textures_sorted` loop inside
`computeAtlasTree` (atlas.py lines 300-311): insert each pair in
order; on the first failed insertion the pass is abandoned
(`break` with `node_root == None`). -/
def packList : Node → List (Nat × Img) → Option Node
  | n, [] => some n
  | n, (id, img) :: rest =>
    match n.insert img id with
    | some n2 => packList n2 rest
    | none => none

/-- One full insertion pass over a fresh root `Node(Rectangle(0,0,side,side))`. -/
def attemptPass (side : Nat) (l : List (Nat × Img)) : Option Node :=
  packList (.leaf ⟨0, 0, (side : Int), (side : Int)⟩ none none) l

/-- `computeArea` of atlas.py: `width * height` of an image's size. -/
def computeArea (img : Img) : Nat := img.w * img.h

/-- The `surfaceAtlas` accumulation in `computeAtlasTree`
(atlas.py lines 286-289): the summed pixel area of all textures. -/
def surfaceAtlas (l : List (Nat × Img)) : Nat :=
  l.foldl (fun acc p => acc + computeArea p.2) 0

/-- The loop of `multipleOf2` (atlas.py lines 268-277): `i` starts at 1
and doubles while `i < nb`.  The source compares `i < sqrt(area)`;
since `i ≥ 0` and `area ≥ 0`, this is modelled exactly by the
equivalent integer comparison `i * i < area`. -/
def multipleOf2Go (area : Nat) (i : Nat) (hi : 0 < i) : Nat :=
  if h : i * i < area then multipleOf2Go area (i + i) (by omega) else i
termination_by area - i
decreasing_by
  have h1 : i ≤ i * i := Nat.le_mul_of_pos_left i hi
  omega

/-- `multipleOf2(np.sqrt(area))`: the first power of 2 not less than
the square root of `area`. -/
def multipleOf2 (area : Nat) : Nat := multipleOf2Go area 1 Nat.one_pos

/-- The `while node_root == None` retry loop of `computeAtlasTree`
(atlas.py lines 296-312): run a pass on a fresh root; on failure
double the canvas side (`rect.get_width() * 2`) and restart from
scratch.  The source loop has no bound; `fuel` bounds the number of
passes modelled, and `none` means no pass within `fuel` succeeded. -/
def computeAtlasTreeLoop : Nat → Nat → List (Nat × Img) → Option Node
  | 0, _, _ => none
  | fuel + 1, side, l =>
    match attemptPass side l with
    | some t => some t
    | none => computeAtlasTreeLoop fuel (side * 2) l

/-- `computeAtlasTree` (atlas.py lines 279-312): estimate the initial
square side from the summed texture area, then run the retry loop. -/
def computeAtlasTree (fuel : Nat) (l : List (Nat × Img)) : Option Node :=
  computeAtlasTreeLoop fuel (multipleOf2 (surfaceAtlas l)) l

/-- The per-UV-pair body of `Node.updateUv` (atlas.py lines 222-237):
`new_u = u * (oldWidth/newWidth) + left/newWidth`,
`new_v = v * (oldHeight/newHeight) + top/newHeight`.  The Python float
values (and the final float32 store) are modelled as exact rationals. -/
def updateUvPoint (rect : Rectangle) (oldWidth oldHeight newWidth newHeight : ℚ)
    (uv : ℚ × ℚ) : ℚ × ℚ :=
  let ratioWidth := oldWidth / newWidth
  let ratioHeight := oldHeight / newHeight
  let offsetWidth := (rect.left : ℚ) / newWidth
  let offsetHeight := (rect.top : ℚ) / newHeight
  (uv.1 * ratioWidth + offsetWidth, uv.2 * ratioHeight + offsetHeight)

/-- `Node.updateUv` (atlas.py lines 213-237): overwrite every UV pair
of every triangle with its remapped value.  The `uvs[i][y]` double
loop over triangles and their three corners is modelled as a nested
list map. -/
def Node.updateUv (n : Node) (oldWidth oldHeight newWidth newHeight : ℚ)
    (uvs : List (List (ℚ × ℚ))) : List (List (ℚ × ℚ)) :=
  uvs.map fun tri => tri.map (updateUvPoint n.rect oldWidth oldHeight newWidth newHeight)

/-- The half-open pixel footprints of two rectangles intersect. -/
def Rectangle.overlaps (a b : Rectangle) : Prop :=
  a.left < b.right ∧ b.left < a.right ∧ a.top < b.bottom ∧ b.top < a.bottom

instance (a b : Rectangle) : Decidable (a.overlaps b) :=
  inferInstanceAs (Decidable (_ ∧ _ ∧ _ ∧ _))

/-- The pixel footprint of `a` is contained in that of `b`. -/
def Rectangle.subRect (a b : Rectangle) : Prop :=
  b.left ≤ a.left ∧ a.right ≤ b.right ∧ b.top ≤ a.top ∧ a.bottom ≤ b.bottom

instance (a b : Rectangle) : Decidable (a.subRect b) :=
  inferInstanceAs (Decidable (_ ∧ _ ∧ _ ∧ _))

/-- The pixel `(x, y)` lies in the half-open footprint of `r`. -/
def Rectangle.containsPoint (r : Rectangle) (x y : Int) : Prop :=
  r.left ≤ x ∧ x < r.right ∧ r.top ≤ y ∧ y < r.bottom

instance (r : Rectangle) (x y : Int) : Decidable (r.containsPoint x y) :=
  inferInstanceAs (Decidable (_ ∧ _ ∧ _ ∧ _))

/-- The rectangles of all leaves of the tree, left to right. -/
def Node.leafRects : Node → List Rectangle
  | .leaf r _ _ => [r]
  | .node _ c0 c1 => c0.leafRects ++ c1.leafRects

/-- Number of leaves holding a placed image whose `building_id` is `id`. -/
def Node.countId : Node → Nat → Nat
  | .leaf _ (some _) (some b), id => if b = id then 1 else 0
  | .leaf _ _ _, _ => 0
  | .node _ c0 c1, id => c0.countId id + c1.countId id

/-- The pixel `(x, y)` is covered by an image placed at some leaf: the
image pasted at `(rect.left, rect.top)` (as in `fillAtlasImage`)
covers `[left, left + w) × [top, top + h)`. -/
def Node.coveredByImage : Node → Int → Int → Prop
  | .leaf rect (some img) _, x, y =>
    rect.left ≤ x ∧ x < rect.left + (img.w : Int) ∧
      rect.top ≤ y ∧ y < rect.top + (img.h : Int)
  | .leaf _ none _, _, _ => False
  | .node _ c0 c1, x, y => c0.coveredByImage x y ∨ c1.coveredByImage x y

instance Node.decCoveredByImage : (n : Node) → (x y : Int) → Decidable (n.coveredByImage x y)
  | .leaf _ (some _) _, _, _ => inferInstanceAs (Decidable (_ ∧ _ ∧ _ ∧ _))
  | .leaf _ none _, _, _ => inferInstanceAs (Decidable False)
  | .node _ c0 c1, x, y =>
    have := Node.decCoveredByImage c0 x y
    have := Node.decCoveredByImage c1 x y
    inferInstanceAs (Decidable (_ ∨ _))

/-- Structural well-formedness of a packing tree: each internal node's
children have footprints contained in the node's rectangle and
mutually disjoint. -/
def Node.wf : Node → Prop
  | .leaf _ _ _ => True
  | .node r c0 c1 =>
    c0.rect.subRect r ∧ c1.rect.subRect r ∧ ¬ c0.rect.overlaps c1.rect ∧ c0.wf ∧ c1.wf

/-- Names of the methods defined on the `Node` class of atlas.py. -/
def nodeMethods : List String :=
  ["isLeaf", "insert", "createAtlasImage", "fillAtlasImage", "updateUv"]

/-- Outcome of the texture-handling tail of
`CityMCityObjects.retrieve_geometries` (citym_cityobject.py lines
282-311). -/
inductive AssembleResult where
  | arrays (perObjectIds : List Nat)
  | attributeError (method : String)
  | fuelExhausted
deriving DecidableEq, Repr

/-- The texture path of `CityMCityObjects.retrieve_geometries` after
the per-object fetch loop (citym_cityobject.py lines 282-311): run the
same build/retry loop as `computeAtlasTree`, then call
`node_root.insertImages(atlas, ...)` — a method looked up on the
`Node` class — and only afterwards assemble the per-object output
arrays.  The array contents are irrelevant here and are abstracted to
the list of object ids; a method lookup that misses raises
`AttributeError` before any array is produced. -/
def retrieve_geometries (fuel : Nat) (l : List (Nat × Img)) : AssembleResult :=
  match computeAtlasTreeLoop fuel (multipleOf2 (surfaceAtlas l)) l with
  | none => .fuelExhausted
  | some _ =>
    if "insertImages" ∈ nodeMethods then .arrays (l.map Prod.fst)
    else .attributeError "insertImages"


/-! ### Concrete scenario data -/

/-- A 4-by-4 pixel image (Scenario A of the spec). -/
def img44 : Img := ⟨4, 4⟩

/-- Scenario A input: two 4-by-4 images keyed 1 and 2.  Total area 32. -/
def lA : List (Nat × Img) := [(1, img44), (2, img44)]

/-- The tree obtained by inserting one 4-by-4 image (key 1) into a
fresh 8-by-8 root: a vertical split at `x = 4` (second child starting
at `x = 5`), then a horizontal split at `y = 4` (second child starting
at `y = 5`), with the image placed in the top-left 4-by-4 leaf. -/
def T8 : Node :=
  .node ⟨0, 0, 8, 8⟩
    (.node ⟨0, 0, 4, 8⟩
      (.leaf ⟨0, 0, 4, 4⟩ (some img44) (some 1))
      (.leaf ⟨0, 5, 4, 8⟩ none none))
    (.leaf ⟨5, 0, 8, 8⟩ none none)

/-- The tree obtained by inserting both Scenario A images into a fresh
16-by-16 root. -/
def T16 : Node :=
  .node ⟨0, 0, 16, 16⟩
    (.node ⟨0, 0, 4, 16⟩
      (.leaf ⟨0, 0, 4, 4⟩ (some img44) (some 1))
      (.node ⟨0, 5, 4, 16⟩
        (.leaf ⟨0, 5, 4, 9⟩ (some img44) (some 2))
        (.leaf ⟨0, 10, 4, 16⟩ none none)))
    (.leaf ⟨5, 0, 16, 16⟩ none none)

/-- A single textured object (key 3) with a 4-by-4 texture. -/
def lB : List (Nat × Img) := [(3, img44)]

/-! ### Basic rectangle lemmas -/

theorem Rectangle.subRect_refl (r : Rectangle) : r.subRect r :=
  ⟨le_refl _, le_refl _, le_refl _, le_refl _⟩

theorem Rectangle.subRect_trans {a b c : Rectangle} (h1 : a.subRect b) (h2 : b.subRect c) :
    a.subRect c := by
  obtain ⟨x1, x2, x3, x4⟩ := h1
  obtain ⟨y1, y2, y3, y4⟩ := h2
  exact ⟨le_trans y1 x1, le_trans x2 y2, le_trans y3 x3, le_trans x4 y4⟩

theorem Rectangle.overlaps_mono {a b a' b' : Rectangle} (ha : a.subRect a') (hb : b.subRect b')
    (h : a.overlaps b) : a'.overlaps b' := by
  obtain ⟨x1, x2, x3, x4⟩ := ha
  obtain ⟨y1, y2, y3, y4⟩ := hb
  obtain ⟨o1, o2, o3, o4⟩ := h
  exact ⟨lt_of_le_of_lt x1 (lt_of_lt_of_le o1 y2), lt_of_le_of_lt y1 (lt_of_lt_of_le o2 x2),
    lt_of_le_of_lt x3 (lt_of_lt_of_le o3 y4), lt_of_le_of_lt y3 (lt_of_lt_of_le o4 x4)⟩

/-! ### `insertLeaf` lemmas -/

theorem insertLeaf_rect (r : Rectangle) (i : Option Img) (b : Option Nat) (img : Img)
    (id : Nat) : ((insertLeaf r i b img id).1).rect = r := by
  rw [insertLeaf]
  repeat' split
  all_goals rfl

theorem insertLeaf_atomic (r : Rectangle) (i : Option Img) (b : Option Nat) (img : Img)
    (id : Nat) :
    (insertLeaf r i b img id).2 = false → (insertLeaf r i b img id).1 = .leaf r i b := by
  rw [insertLeaf]
  repeat' split
  all_goals intro h
  all_goals first
  | rfl
  | simp at h

theorem insertLeaf_wf (r : Rectangle) (i : Option Img) (b : Option Nat) (img : Img)
    (id : Nat) : ((insertLeaf r i b img id).1).wf := by
  induction r, i, b, img, id using insertLeaf.induct with
  | case1 rect image bid img id h0 =>
    rw [insertLeaf, if_pos h0]
    trivial
  | case2 rect image bid img id h0 h1 =>
    rw [insertLeaf, if_neg h0, dif_pos h1]
    trivial
  | case3 rect image bid img id h0 h1 h2 =>
    rw [insertLeaf, if_neg h0, dif_neg h1, dif_pos h2]
    trivial
  | case4 rect image bid img id h0 h1 h2 hd rA ih =>
    rw [insertLeaf, if_neg h0, dif_neg h1, dif_neg h2, dif_pos hd]
    have hf : rect.fits img = true := by revert h2; cases rect.fits img <;> simp
    simp only [Rectangle.fits, Bool.and_eq_true, decide_eq_true_eq,
      Rectangle.width, Rectangle.height] at hf
    refine ⟨?_, ?_, ?_, ih, trivial⟩
    · rw [insertLeaf_rect]
      simp only [Rectangle.subRect]
      omega
    · simp only [Node.rect, Rectangle.subRect]
      omega
    · rw [insertLeaf_rect]
      simp only [Node.rect, Rectangle.overlaps]
      omega
  | case5 rect image bid img id h0 h1 h2 hd rA ih =>
    rw [insertLeaf, if_neg h0, dif_neg h1, dif_neg h2, dif_neg hd]
    have hf : rect.fits img = true := by revert h2; cases rect.fits img <;> simp
    simp only [Rectangle.fits, Bool.and_eq_true, decide_eq_true_eq,
      Rectangle.width, Rectangle.height] at hf
    refine ⟨?_, ?_, ?_, ih, trivial⟩
    · rw [insertLeaf_rect]
      simp only [Rectangle.subRect]
      omega
    · simp only [Node.rect, Rectangle.subRect]
      omega
    · rw [insertLeaf_rect]
      simp only [Node.rect, Rectangle.overlaps]
      omega

theorem insertLeaf_success (r : Rectangle) (b : Option Nat) (img : Img) (id : Nat)
    (h : r.fits img = true) : (insertLeaf r none b img id).2 = true := by
  rw [insertLeaf]
  repeat' split
  all_goals simp_all

theorem insertLeaf_countId (r : Rectangle) (im : Option Img) (b : Option Nat) (img : Img)
    (id : Nat) :
    im = none → (insertLeaf r im b img id).2 = true →
      ∀ i, ((insertLeaf r im b img id).1).countId i = if id = i then 1 else 0 := by
  induction r, im, b, img, id using insertLeaf.induct with
  | case1 rect image bid img id h0 =>
    intro hnone
    exact absurd hnone h0
  | case2 rect image bid img id h0 h1 =>
    intro hnone _ i
    rw [insertLeaf, if_neg h0, dif_pos h1]
    simp [Node.countId]
  | case3 rect image bid img id h0 h1 h2 =>
    intro hnone hs
    rw [insertLeaf, if_neg h0, dif_neg h1, dif_pos h2] at hs
    simp at hs
  | case4 rect image bid img id h0 h1 h2 hd rA ih =>
    intro hnone hs i
    rw [insertLeaf, if_neg h0, dif_neg h1, dif_neg h2, dif_pos hd]
    have hf : rect.fits img = true := by revert h2; cases rect.fits img <;> simp
    simp only [Rectangle.fits, Bool.and_eq_true, decide_eq_true_eq,
      Rectangle.width, Rectangle.height] at hf
    have hfitA : Rectangle.fits ⟨rect.left, rect.top, rect.left + (img.w : Int), rect.bottom⟩
        img = true := by
      simp only [Rectangle.fits, Rectangle.width, Rectangle.height, Bool.and_eq_true,
        decide_eq_true_eq]
      omega
    have hsA := insertLeaf_success _ none img id hfitA
    simp only [Node.countId, ih rfl hsA i]
    omega
  | case5 rect image bid img id h0 h1 h2 hd rA ih =>
    intro hnone hs i
    rw [insertLeaf, if_neg h0, dif_neg h1, dif_neg h2, dif_neg hd]
    have hf : rect.fits img = true := by revert h2; cases rect.fits img <;> simp
    simp only [Rectangle.fits, Bool.and_eq_true, decide_eq_true_eq,
      Rectangle.width, Rectangle.height] at hf
    have hfitA : Rectangle.fits ⟨rect.left, rect.top, rect.right, rect.top + (img.h : Int)⟩
        img = true := by
      simp only [Rectangle.fits, Rectangle.width, Rectangle.height, Bool.and_eq_true,
        decide_eq_true_eq]
      omega
    have hsA := insertLeaf_success _ none img id hfitA
    simp only [Node.countId, ih rfl hsA i]
    omega

/-! ### `Node.insertM` lemmas -/

theorem insertM_rect (n : Node) (img : Img) (id : Nat) :
    ((n.insertM img id).1).rect = n.rect := by
  induction n with
  | leaf r i b => exact insertLeaf_rect r i b img id
  | node r c0 c1 ih0 ih1 =>
    cases h0 : (c0.insertM img id).2 <;> cases h1 : (c1.insertM img id).2 <;>
      simp [Node.insertM, h0, h1, Node.rect]

theorem insertM_atomic (n : Node) (img : Img) (id : Nat) :
    (n.insertM img id).2 = false → (n.insertM img id).1 = n := by
  induction n with
  | leaf r i b => exact insertLeaf_atomic r i b img id
  | node r c0 c1 ih0 ih1 =>
    intro h
    cases h0 : (c0.insertM img id).2
    · cases h1 : (c1.insertM img id).2
      · simp only [Node.insertM, h0, h1, if_neg Bool.false_ne_true]
        rw [ih0 h0, ih1 h1]
      · simp [Node.insertM, h0, h1] at h
    · simp [Node.insertM, h0] at h

theorem insertM_wf (n : Node) (img : Img) (id : Nat) (hw : n.wf) :
    ((n.insertM img id).1).wf := by
  induction n with
  | leaf r i b => exact insertLeaf_wf r i b img id
  | node r c0 c1 ih0 ih1 =>
    obtain ⟨hs0, hs1, hov, hw0, hw1⟩ := hw
    have e0 := insertM_rect c0 img id
    have e1 := insertM_rect c1 img id
    cases h0 : (c0.insertM img id).2
    · cases h1 : (c1.insertM img id).2 <;>
        · simp only [Node.insertM, h0, h1, if_neg Bool.false_ne_true, if_pos rfl]
          exact ⟨by rw [e0]; exact hs0, by rw [e1]; exact hs1,
            by rw [e0, e1]; exact hov, ih0 hw0, ih1 hw1⟩
    · simp only [Node.insertM, h0, if_pos rfl]
      exact ⟨by rw [e0]; exact hs0, hs1, by rw [e0]; exact hov, ih0 hw0, hw1⟩

theorem insertM_countId (n : Node) (img : Img) (id : Nat) :
    (n.insertM img id).2 = true →
      ∀ i, ((n.insertM img id).1).countId i = n.countId i + if id = i then 1 else 0 := by
  induction n with
  | leaf r im b =>
    intro hs i
    cases im with
    | none =>
      rw [show (Node.leaf r none b).insertM img id = insertLeaf r none b img id
        from rfl] at hs ⊢
      rw [show (Node.leaf r none b).countId i = 0 by cases b <;> rfl]
      rw [insertLeaf_countId r none b img id rfl hs i]
      omega
    | some im0 =>
      exfalso
      have : (insertLeaf r (some im0) b img id).2 = false := by
        rw [insertLeaf, if_pos (by simp)]
      rw [show (Node.leaf r (some im0) b).insertM img id = insertLeaf r (some im0) b img id
        from rfl] at hs
      rw [this] at hs
      exact Bool.false_ne_true hs
  | node r c0 c1 ih0 ih1 =>
    intro hs i
    cases h0 : (c0.insertM img id).2
    · cases h1 : (c1.insertM img id).2
      · simp [Node.insertM, h0, h1] at hs
      · simp only [Node.insertM, h0, h1, if_neg Bool.false_ne_true, if_pos rfl]
        simp only [Node.countId]
        rw [insertM_atomic c0 img id h0, ih1 h1 i]
        omega
    · simp only [Node.insertM, h0, if_pos rfl]
      simp only [Node.countId]
      rw [ih0 h0 i]
      omega

/-! ### Leaf rectangles of a well-formed tree are pairwise disjoint -/

theorem leafRects_sub (n : Node) (hw : n.wf) :
    ∀ r ∈ n.leafRects, r.subRect n.rect := by
  induction n with
  | leaf r i b =>
    intro s hs
    simp only [Node.leafRects, List.mem_singleton] at hs
    subst hs
    exact Rectangle.subRect_refl _
  | node r c0 c1 ih0 ih1 =>
    obtain ⟨hs0, hs1, _, hw0, hw1⟩ := hw
    intro s hs
    simp only [Node.leafRects, List.mem_append] at hs
    rcases hs with hs | hs
    · exact Rectangle.subRect_trans (ih0 hw0 s hs) hs0
    · exact Rectangle.subRect_trans (ih1 hw1 s hs) hs1

theorem wf_pairwise (n : Node) (hw : n.wf) :
    n.leafRects.Pairwise (fun a b => ¬ a.overlaps b) := by
  induction n with
  | leaf r i b => simp [Node.leafRects]
  | node r c0 c1 ih0 ih1 =>
    obtain ⟨hs0, hs1, hov, hw0, hw1⟩ := hw
    simp only [Node.leafRects]
    rw [List.pairwise_append]
    refine ⟨ih0 hw0, ih1 hw1, ?_⟩
    intro a ha b hb hab
    exact hov (Rectangle.overlaps_mono (leafRects_sub c0 hw0 a ha)
      (leafRects_sub c1 hw1 b hb) hab)

/-! ### `Node.insert` and `packList` lemmas -/

theorem insert_eq_some {n t : Node} {img : Img} {id : Nat}
    (h : n.insert img id = some t) :
    (n.insertM img id).2 = true ∧ (n.insertM img id).1 = t := by
  unfold Node.insert at h
  by_cases hs : (n.insertM img id).2
  · rw [if_pos hs] at h
    exact ⟨hs, Option.some_injective _ h⟩
  · rw [if_neg hs] at h
    exact absurd h (by simp)

theorem insert_wf {n t : Node} {img : Img} {id : Nat} (hw : n.wf)
    (h : n.insert img id = some t) : t.wf := by
  obtain ⟨-, h1⟩ := insert_eq_some h
  rw [← h1]
  exact insertM_wf n img id hw

theorem insert_countId {n t : Node} {img : Img} {id : Nat}
    (h : n.insert img id = some t) :
    ∀ i, t.countId i = n.countId i + if id = i then 1 else 0 := by
  obtain ⟨hs, h1⟩ := insert_eq_some h
  rw [← h1]
  exact insertM_countId n img id hs

theorem packList_wf {n t : Node} {l : List (Nat × Img)} (hw : n.wf)
    (h : packList n l = some t) : t.wf := by
  induction l generalizing n with
  | nil =>
    simp only [packList] at h
    rw [← Option.some_injective _ h]
    exact hw
  | cons p rest ih =>
    obtain ⟨id, img⟩ := p
    simp only [packList] at h
    cases hi : n.insert img id with
    | none => rw [hi] at h; exact absurd h (by simp)
    | some n2 =>
      rw [hi] at h
      exact ih (insert_wf hw hi) h

theorem packList_countId {n t : Node} {l : List (Nat × Img)}
    (h : packList n l = some t) :
    ∀ i, t.countId i = n.countId i + (l.map Prod.fst).count i := by
  induction l generalizing n with
  | nil =>
    simp only [packList] at h
    rw [← Option.some_injective _ h]
    simp
  | cons p rest ih =>
    obtain ⟨id, img⟩ := p
    intro i
    simp only [packList] at h
    cases hi : n.insert img id with
    | none => rw [hi] at h; exact absurd h (by simp)
    | some n2 =>
      rw [hi] at h
      rw [ih h i, insert_countId hi i]
      simp only [List.map_cons, List.count_cons]
      by_cases hid : id = i <;> (simp [hid]; try omega)

/-! ### Concrete evaluations -/

theorem img44_w : img44.w = 4 := rfl

theorem img44_h : img44.h = 4 := rfl

theorem ev_occupied (r : Rectangle) (i0 : Img) (b : Option Nat) (img : Img) (id : Nat) :
    insertLeaf r (some i0) b img id = (.leaf r (some i0) b, false) := by
  rw [insertLeaf]
  simp

theorem ev44 (id : Nat) :
    insertLeaf ⟨0, 0, 4, 4⟩ none none img44 id
      = (.leaf ⟨0, 0, 4, 4⟩ (some img44) (some id), true) := by
  rw [insertLeaf]
  norm_num [img44_w, img44_h, Rectangle.perfect_fits, Rectangle.width, Rectangle.height,
    beq_iff_eq]

theorem ev48 (id : Nat) :
    insertLeaf ⟨0, 0, 4, 8⟩ none none img44 id
      = (.node ⟨0, 0, 4, 8⟩ (.leaf ⟨0, 0, 4, 4⟩ (some img44) (some id))
          (.leaf ⟨0, 5, 4, 8⟩ none none), true) := by
  rw [insertLeaf]
  norm_num [img44_w, img44_h, Rectangle.perfect_fits, Rectangle.fits, Rectangle.width,
    Rectangle.height, beq_iff_eq, ev44]

theorem ev88 (id : Nat) :
    insertLeaf ⟨0, 0, 8, 8⟩ none none img44 id
      = (.node ⟨0, 0, 8, 8⟩
          (.node ⟨0, 0, 4, 8⟩ (.leaf ⟨0, 0, 4, 4⟩ (some img44) (some id))
            (.leaf ⟨0, 5, 4, 8⟩ none none))
          (.leaf ⟨5, 0, 8, 8⟩ none none), true) := by
  rw [insertLeaf]
  norm_num [img44_w, img44_h, Rectangle.perfect_fits, Rectangle.fits, Rectangle.width,
    Rectangle.height, beq_iff_eq, ev48]

theorem ev0548fail :
    insertLeaf ⟨0, 5, 4, 8⟩ none none img44 2 = (.leaf ⟨0, 5, 4, 8⟩ none none, false) := by
  rw [insertLeaf]
  norm_num [img44_w, img44_h, Rectangle.perfect_fits, Rectangle.fits, Rectangle.width,
    Rectangle.height, beq_iff_eq]

theorem ev5088fail :
    insertLeaf ⟨5, 0, 8, 8⟩ none none img44 2 = (.leaf ⟨5, 0, 8, 8⟩ none none, false) := by
  rw [insertLeaf]
  norm_num [img44_w, img44_h, Rectangle.perfect_fits, Rectangle.fits, Rectangle.width,
    Rectangle.height, beq_iff_eq]

theorem evM_T8 : Node.insertM T8 img44 2 = (T8, false) := by
  simp only [T8, Node.insertM, ev_occupied, ev0548fail, ev5088fail]
  norm_num

theorem ev_insert88 :
    Node.insert (.leaf ⟨0, 0, 8, 8⟩ none none) img44 1 = some T8 := by
  simp only [Node.insert, Node.insertM, ev88, T8]
  norm_num

theorem ev_attempt8 : attemptPass 8 lA = none := by
  have h2 : Node.insert T8 img44 2 = none := by
    simp only [Node.insert, evM_T8]
    norm_num
  simp only [attemptPass, lA, packList, Nat.cast_ofNat, ev_insert88, h2]

theorem ev4416 (id : Nat) :
    insertLeaf ⟨0, 0, 4, 16⟩ none none img44 id
      = (.node ⟨0, 0, 4, 16⟩ (.leaf ⟨0, 0, 4, 4⟩ (some img44) (some id))
          (.leaf ⟨0, 5, 4, 16⟩ none none), true) := by
  rw [insertLeaf]
  norm_num [img44_w, img44_h, Rectangle.perfect_fits, Rectangle.fits, Rectangle.width,
    Rectangle.height, beq_iff_eq, ev44]

theorem ev1616 (id : Nat) :
    insertLeaf ⟨0, 0, 16, 16⟩ none none img44 id
      = (.node ⟨0, 0, 16, 16⟩
          (.node ⟨0, 0, 4, 16⟩ (.leaf ⟨0, 0, 4, 4⟩ (some img44) (some id))
            (.leaf ⟨0, 5, 4, 16⟩ none none))
          (.leaf ⟨5, 0, 16, 16⟩ none none), true) := by
  rw [insertLeaf]
  norm_num [img44_w, img44_h, Rectangle.perfect_fits, Rectangle.fits, Rectangle.width,
    Rectangle.height, beq_iff_eq, ev4416]

theorem ev0549 :
    insertLeaf ⟨0, 5, 4, 9⟩ none none img44 2
      = (.leaf ⟨0, 5, 4, 9⟩ (some img44) (some 2), true) := by
  rw [insertLeaf]
  norm_num [img44_w, img44_h, Rectangle.perfect_fits, Rectangle.width, Rectangle.height,
    beq_iff_eq]

theorem ev05416 :
    insertLeaf ⟨0, 5, 4, 16⟩ none none img44 2
      = (.node ⟨0, 5, 4, 16⟩ (.leaf ⟨0, 5, 4, 9⟩ (some img44) (some 2))
          (.leaf ⟨0, 10, 4, 16⟩ none none), true) := by
  rw [insertLeaf]
  norm_num [img44_w, img44_h, Rectangle.perfect_fits, Rectangle.fits, Rectangle.width,
    Rectangle.height, beq_iff_eq, ev0549]

theorem ev_attempt16 : attemptPass 16 lA = some T16 := by
  have h1 : Node.insert (.leaf ⟨0, 0, 16, 16⟩ none none) img44 1
      = some (.node ⟨0, 0, 16, 16⟩
          (.node ⟨0, 0, 4, 16⟩ (.leaf ⟨0, 0, 4, 4⟩ (some img44) (some 1))
            (.leaf ⟨0, 5, 4, 16⟩ none none))
          (.leaf ⟨5, 0, 16, 16⟩ none none)) := by
    simp only [Node.insert, Node.insertM, ev1616]
    norm_num
  have h2 : Node.insert (.node ⟨0, 0, 16, 16⟩
      (.node ⟨0, 0, 4, 16⟩ (.leaf ⟨0, 0, 4, 4⟩ (some img44) (some 1))
        (.leaf ⟨0, 5, 4, 16⟩ none none))
      (.leaf ⟨5, 0, 16, 16⟩ none none)) img44 2 = some T16 := by
    simp only [Node.insert, Node.insertM, ev_occupied, ev05416, T16]
    norm_num
  simp only [attemptPass, lA, packList, Nat.cast_ofNat, h1, h2]

theorem ev_surfaceA : surfaceAtlas lA = 32 := by
  norm_num [surfaceAtlas, lA, computeArea, img44_w, img44_h]

theorem evm32 : multipleOf2 32 = 8 := by
  rw [multipleOf2]
  rw [multipleOf2Go]; norm_num
  rw [multipleOf2Go]; norm_num
  rw [multipleOf2Go]; norm_num
  rw [multipleOf2Go]; norm_num

theorem evm16 : multipleOf2 16 = 4 := by
  rw [multipleOf2]
  rw [multipleOf2Go]; norm_num
  rw [multipleOf2Go]; norm_num
  rw [multipleOf2Go]; norm_num

theorem evm0 : multipleOf2 0 = 1 := by
  rw [multipleOf2]
  rw [multipleOf2Go]
  norm_num

/-! ### `multipleOf2` specification -/

theorem multipleOf2Go_pow (area : Nat) :
    ∀ (i : Nat) (hi : 0 < i), ∃ m, multipleOf2Go area i hi = i * 2 ^ m := by
  refine multipleOf2Go.induct area
    (fun i hi => ∃ m, multipleOf2Go area i hi = i * 2 ^ m) ?_ ?_
  · intro i hi h ih
    obtain ⟨m, hm⟩ := ih
    rw [multipleOf2Go, dif_pos h, hm]
    exact ⟨m + 1, by ring⟩
  · intro i hi h
    rw [multipleOf2Go, dif_neg h]
    exact ⟨0, by ring⟩

theorem multipleOf2Go_sq (area : Nat) :
    ∀ (i : Nat) (hi : 0 < i), area ≤ multipleOf2Go area i hi * multipleOf2Go area i hi := by
  refine multipleOf2Go.induct area
    (fun i hi => area ≤ multipleOf2Go area i hi * multipleOf2Go area i hi) ?_ ?_
  · intro i hi h ih
    rw [multipleOf2Go, dif_pos h]
    exact ih
  · intro i hi h
    rw [multipleOf2Go, dif_neg h]
    omega

theorem multipleOf2Go_min (area : Nat) :
    ∀ (i : Nat) (hi : 0 < i), ∀ s, i ≤ s → (∃ m, s = i * 2 ^ m) → area ≤ s * s →
      multipleOf2Go area i hi ≤ s := by
  refine multipleOf2Go.induct area
    (fun i hi => ∀ s, i ≤ s → (∃ m, s = i * 2 ^ m) → area ≤ s * s →
      multipleOf2Go area i hi ≤ s) ?_ ?_
  · intro i hi h ih
    rintro s hs ⟨m, hm⟩ hsq
    rw [multipleOf2Go, dif_pos h]
    have hlt : i < s := by
      rcases Nat.lt_or_ge i s with hc | hc
      · exact hc
      · exfalso
        have : s * s ≤ i * i := Nat.mul_le_mul hc hc
        omega
    have hm1 : 1 ≤ m := by
      by_contra hm0
      have hm2 : m = 0 := by omega
      subst hm2
      simp at hm
      omega
    have h2m : (2 : Nat) ≤ 2 ^ m := by
      calc (2 : Nat) = 2 ^ 1 := (pow_one 2).symm
        _ ≤ 2 ^ m := Nat.pow_le_pow_right (by norm_num) hm1
    have h2i : i + i ≤ s := by
      rw [hm]
      calc i + i = i * 2 := by ring
        _ ≤ i * 2 ^ m := Nat.mul_le_mul_left i h2m
    refine ih s h2i ⟨m - 1, ?_⟩ hsq
    rw [hm]
    have hp : (2 : Nat) ^ m = 2 ^ (m - 1) * 2 := by
      rw [← pow_succ]
      congr 1
      omega
    rw [hp]
    ring
  · intro i hi h
    intro s hs _ _
    rw [multipleOf2Go, dif_neg h]
    exact hs

/-! ### Claim theorems -/

/-- C1: No-overlap invariant — for every packing tree built by a
sequence of successful `insert` calls starting from a fresh root leaf
over a single canvas rectangle, the (half-open pixel footprints of
the) rectangles of any two distinct leaves are pairwise disjoint; in
particular the rectangles of any two leaves holding placed images are
disjoint. -/
theorem C1_no_overlap (r : Rectangle) (l : List (Nat × Img)) (t : Node)
    (h : packList (.leaf r none none) l = some t) :
    t.leafRects.Pairwise (fun a b => ¬ a.overlaps b) := by
  have hw : (Node.leaf r none none).wf := trivial
  exact wf_pairwise t (packList_wf hw h)

theorem C1_no_overlap_witness :
    T8.leafRects.Pairwise (fun a b => ¬ a.overlaps b) :=
  C1_no_overlap ⟨0, 0, 8, 8⟩ [(1, img44)] T8
    (by simp only [packList, ev_insert88])

/-- C2 (counterexample): Scenario A as claimed is false on the code.
The area-estimate side for two 4-by-4 images is indeed 8, but the two
images do NOT both pack into the 8-by-8 canvas: the full pass over
`lA` fails (the second insertion finds only a 4x3 and a 3x8 free leaf
because each split loses a one-pixel strip). -/
theorem C2_counterexample :
    multipleOf2 (surfaceAtlas lA) = 8 ∧ attemptPass 8 lA = none :=
  ⟨by rw [ev_surfaceA, evm32], ev_attempt8⟩

/-- C2 (amended): packing two 4-by-4 images computes the area-estimate
side 8 (smallest power of two whose square is at least 32); the first
pass on the 8-by-8 canvas fails, so the packer doubles the side once
and both images pack into the resulting 16-by-16 canvas. -/
theorem C2_amended :
    multipleOf2 (surfaceAtlas lA) = 8 ∧ attemptPass 8 lA = none ∧
      computeAtlasTree 2 lA = some T16 ∧ T16.rect = ⟨0, 0, 16, 16⟩ := by
  refine ⟨by rw [ev_surfaceA, evm32], ev_attempt8, ?_, rfl⟩
  simp only [computeAtlasTree, ev_surfaceA, evm32, computeAtlasTreeLoop, ev_attempt8]
  norm_num [ev_attempt16]

/-- C3 (counterexample): splitting does lose canvas area.  After
inserting one 4-by-4 image into an 8-by-8 root, the pixel `(4, 0)`
lies in the canvas footprint, is not covered by the placed image, and
lies in no leaf rectangle at all — so it is not in "exactly one empty
leaf". -/
theorem C3_counterexample :
    Rectangle.containsPoint ⟨0, 0, 8, 8⟩ 4 0 ∧ ¬ T8.coveredByImage 4 0 ∧
      ∀ s ∈ T8.leafRects, ¬ s.containsPoint 4 0 := by
  decide

/-- C3 (amended): whenever `insert` splits a leaf, the two child
rectangles are disjoint sub-rectangles of the parent, but they do not
exactly cover it: along the split axis the children's extents sum to
one less than the parent's extent (the `+ 1` in the second child's
origin loses a one-pixel-wide strip), while both children span the
parent fully on the other axis. -/
theorem C3_amended (rect : Rectangle) (b : Option Nat) (img : Img) (id : Nat)
    (h1 : rect.perfect_fits img = false) (h2 : rect.fits img = true) :
    (((insertLeaf rect none b img id).1).child0.rect).subRect rect ∧
    (((insertLeaf rect none b img id).1).child1.rect).subRect rect ∧
    ¬ (((insertLeaf rect none b img id).1).child0.rect).overlaps
        (((insertLeaf rect none b img id).1).child1.rect) ∧
    (((((insertLeaf rect none b img id).1).child0.rect).width
          + (((insertLeaf rect none b img id).1).child1.rect).width + 1 = rect.width ∧
        (((insertLeaf rect none b img id).1).child0.rect).height = rect.height ∧
        (((insertLeaf rect none b img id).1).child1.rect).height = rect.height) ∨
      ((((insertLeaf rect none b img id).1).child0.rect).height
          + (((insertLeaf rect none b img id).1).child1.rect).height + 1 = rect.height ∧
        (((insertLeaf rect none b img id).1).child0.rect).width = rect.width ∧
        (((insertLeaf rect none b img id).1).child1.rect).width = rect.width)) := by
  have hf := h2
  simp only [Rectangle.fits, Bool.and_eq_true, decide_eq_true_eq, Rectangle.width,
    Rectangle.height] at hf
  rw [insertLeaf, if_neg (by simp), dif_neg (by simp [h1]), dif_neg (by simp [h2])]
  by_cases hd : rect.width - (img.w : Int) ≥ rect.height - (img.h : Int)
  · rw [dif_pos hd]
    simp only [Rectangle.width, Rectangle.height] at hd
    simp only [Node.child0, Node.child1]
    rw [insertLeaf_rect]
    simp only [Node.rect, Rectangle.subRect, Rectangle.overlaps, Rectangle.width,
      Rectangle.height]
    exact ⟨by omega, by omega, by omega, Or.inl ⟨by omega, trivial, trivial⟩⟩
  · rw [dif_neg hd]
    simp only [Rectangle.width, Rectangle.height, not_le] at hd
    simp only [Node.child0, Node.child1]
    rw [insertLeaf_rect]
    simp only [Node.rect, Rectangle.subRect, Rectangle.overlaps, Rectangle.width,
      Rectangle.height]
    exact ⟨by omega, by omega, by omega, Or.inr ⟨by omega, trivial, trivial⟩⟩

theorem C3_amended_witness :
    (((insertLeaf ⟨0, 0, 8, 8⟩ none none img44 1).1).child0.rect).subRect ⟨0, 0, 8, 8⟩ ∧
    (((insertLeaf ⟨0, 0, 8, 8⟩ none none img44 1).1).child1.rect).subRect ⟨0, 0, 8, 8⟩ ∧
    ¬ (((insertLeaf ⟨0, 0, 8, 8⟩ none none img44 1).1).child0.rect).overlaps
        (((insertLeaf ⟨0, 0, 8, 8⟩ none none img44 1).1).child1.rect) ∧
    (((((insertLeaf ⟨0, 0, 8, 8⟩ none none img44 1).1).child0.rect).width
          + (((insertLeaf ⟨0, 0, 8, 8⟩ none none img44 1).1).child1.rect).width + 1
          = Rectangle.width ⟨0, 0, 8, 8⟩ ∧
        (((insertLeaf ⟨0, 0, 8, 8⟩ none none img44 1).1).child0.rect).height
          = Rectangle.height ⟨0, 0, 8, 8⟩ ∧
        (((insertLeaf ⟨0, 0, 8, 8⟩ none none img44 1).1).child1.rect).height
          = Rectangle.height ⟨0, 0, 8, 8⟩) ∨
      ((((insertLeaf ⟨0, 0, 8, 8⟩ none none img44 1).1).child0.rect).height
          + (((insertLeaf ⟨0, 0, 8, 8⟩ none none img44 1).1).child1.rect).height + 1
          = Rectangle.height ⟨0, 0, 8, 8⟩ ∧
        (((insertLeaf ⟨0, 0, 8, 8⟩ none none img44 1).1).child0.rect).width
          = Rectangle.width ⟨0, 0, 8, 8⟩ ∧
        (((insertLeaf ⟨0, 0, 8, 8⟩ none none img44 1).1).child1.rect).width
          = Rectangle.width ⟨0, 0, 8, 8⟩)) :=
  C3_amended ⟨0, 0, 8, 8⟩ none img44 1 (by decide) (by decide)

/-- C4: Full placement — (i) an `insert` that reports success places
the image at exactly one new leaf: every per-id leaf count rises by
one for the inserted id and is unchanged for every other id; (ii)
inserting into an empty leaf whose rectangle fits the image always
succeeds (in particular the recursive insertion into the freshly
created first child, whose rectangle fits by construction, always
succeeds); (iii) after a successful pack of a list of pairs with
pairwise-distinct ids into a fresh root, every input id occupies
exactly one leaf holding an image. -/
theorem C4_full_placement :
    (∀ (r : Rectangle) (b : Option Nat) (img : Img) (id : Nat),
        r.fits img = true → (insertLeaf r none b img id).2 = true) ∧
    (∀ (n t : Node) (img : Img) (id : Nat), n.insert img id = some t →
        ∀ i, t.countId i = n.countId i + if id = i then 1 else 0) ∧
    (∀ (r : Rectangle) (l : List (Nat × Img)) (t : Node), (l.map Prod.fst).Nodup →
        packList (.leaf r none none) l = some t → ∀ p ∈ l, t.countId p.1 = 1) := by
  refine ⟨insertLeaf_success, fun n t img id h => insert_countId h, ?_⟩
  intro r l t hnd h p hp
  rw [packList_countId h p.1]
  rw [show (Node.leaf r none none).countId p.1 = 0 from rfl]
  rw [List.count_eq_one_of_mem hnd (List.mem_map_of_mem Prod.fst hp)]

theorem C4_full_placement_witness : T8.countId 1 = 1 :=
  C4_full_placement.2.2 ⟨0, 0, 8, 8⟩ [(1, img44)] T8 (by simp)
    (by simp only [packList, ev_insert88]) (1, img44) (by simp)

/-- C5: UV round-trip — for a leaf rectangle `(L,T,R,B)`, an original
texture of size `(w,h)` and a final canvas of size `(W,H)`, the
remapping of `Node.updateUv` sends `(u,v)` to
`(u*(w/W) + L/W, v*(h/H) + T/H)`, and the four corner UVs map exactly
to `(L/W, T/H)`, `((L+w)/W, T/H)`, `(L/W, (T+h)/H)` and
`((L+w)/W, (T+h)/H)`.  Python float arithmetic (and the float32
store) is modelled as exact rational arithmetic. -/
theorem C5_uv_round_trip (L T R B : Int) (w h W H u v : ℚ) :
    updateUvPoint ⟨L, T, R, B⟩ w h W H (u, v)
        = (u * (w / W) + (L : ℚ) / W, v * (h / H) + (T : ℚ) / H) ∧
    updateUvPoint ⟨L, T, R, B⟩ w h W H (0, 0) = ((L : ℚ) / W, (T : ℚ) / H) ∧
    updateUvPoint ⟨L, T, R, B⟩ w h W H (1, 0) = (((L : ℚ) + w) / W, (T : ℚ) / H) ∧
    updateUvPoint ⟨L, T, R, B⟩ w h W H (0, 1) = ((L : ℚ) / W, ((T : ℚ) + h) / H) ∧
    updateUvPoint ⟨L, T, R, B⟩ w h W H (1, 1) = (((L : ℚ) + w) / W, ((T : ℚ) + h) / H) := by
  refine ⟨rfl, ?_, ?_, ?_, ?_⟩ <;>
    simp only [updateUvPoint, Prod.mk.injEq] <;> constructor <;> ring

/-- C6: Insert failure atomicity — whenever `insertM` reports failure
the subtree is returned entirely unchanged; in particular `insert` on
a leaf already holding an image fails and leaves the leaf unchanged. -/
theorem C6_atomicity :
    (∀ (n : Node) (img : Img) (id : Nat),
        (n.insertM img id).2 = false → (n.insertM img id).1 = n) ∧
    (∀ (r : Rectangle) (i0 : Img) (b : Option Nat) (img : Img) (id : Nat),
        (Node.leaf r (some i0) b).insertM img id = (.leaf r (some i0) b, false)) :=
  ⟨insertM_atomic, fun r i0 b img id => ev_occupied r i0 b img id⟩

theorem C6_atomicity_witness : (T8.insertM img44 2).1 = T8 :=
  C6_atomicity.1 T8 img44 2 (by simp only [evM_T8])

/-- C7: Build/retry loop — (i) if the full pass at some side succeeds
the loop terminates at once with that pass's tree; (ii) if the pass
fails, the partially built tree is discarded and the loop restarts
from scratch with the side exactly doubled; (iii) consequently after
`k` failed passes the side equals the initial estimate times `2^k`. -/
theorem C7_retry_loop :
    (∀ (fuel side : Nat) (l : List (Nat × Img)) (t : Node),
        attemptPass side l = some t → computeAtlasTreeLoop (fuel + 1) side l = some t) ∧
    (∀ (fuel side : Nat) (l : List (Nat × Img)),
        attemptPass side l = none →
          computeAtlasTreeLoop (fuel + 1) side l = computeAtlasTreeLoop fuel (side * 2) l) ∧
    (∀ (k m side : Nat) (l : List (Nat × Img)),
        (∀ j, j < k → attemptPass (side * 2 ^ j) l = none) →
          computeAtlasTreeLoop (k + m) side l = computeAtlasTreeLoop m (side * 2 ^ k) l) := by
  refine ⟨?_, ?_, ?_⟩
  · intro fuel side l t h
    simp [computeAtlasTreeLoop, h]
  · intro fuel side l h
    simp [computeAtlasTreeLoop, h]
  · intro k
    induction k with
    | zero => intro m side l _; simp
    | succ k ih =>
      intro m side l h
      have e : (k + 1) + m = k + (m + 1) := by omega
      rw [e, ih (m + 1) side l (fun j hj => h j (by omega))]
      have hk : attemptPass (side * 2 ^ k) l = none := h k (by omega)
      rw [show computeAtlasTreeLoop (m + 1) (side * 2 ^ k) l
          = computeAtlasTreeLoop m (side * 2 ^ k * 2) l from by
        simp [computeAtlasTreeLoop, hk]]
      congr 1
      ring

theorem C7_retry_loop_witness :
    computeAtlasTreeLoop 2 8 lA = computeAtlasTreeLoop 1 (8 * 2 ^ 1) lA :=
  C7_retry_loop.2.2 1 1 8 lA (fun j hj => by
    have hj0 : j = 0 := by omega
    subst hj0
    simpa using ev_attempt8)

/-- C8: Area estimate — the initial candidate side computed before the
first packing pass, `multipleOf2` of the summed pixel area, is the
smallest power of two that is at least the square root of the summed
area (for naturals, `side ≥ √area` iff `side * side ≥ area`). -/
theorem C8_area_estimate (l : List (Nat × Img)) :
    (∃ k, multipleOf2 (surfaceAtlas l) = 2 ^ k) ∧
    surfaceAtlas l ≤ multipleOf2 (surfaceAtlas l) * multipleOf2 (surfaceAtlas l) ∧
    ∀ k, surfaceAtlas l ≤ 2 ^ k * 2 ^ k → multipleOf2 (surfaceAtlas l) ≤ 2 ^ k := by
  refine ⟨?_, multipleOf2Go_sq _ 1 Nat.one_pos, ?_⟩
  · obtain ⟨m, hm⟩ := multipleOf2Go_pow (surfaceAtlas l) 1 Nat.one_pos
    exact ⟨m, by rw [multipleOf2, hm, one_mul]⟩
  · intro k hk
    exact multipleOf2Go_min _ 1 Nat.one_pos (2 ^ k) (Nat.one_le_two_pow)
      ⟨k, (one_mul _).symm⟩ hk

theorem C8_area_estimate_witness : multipleOf2 (surfaceAtlas lA) ≤ 2 ^ 3 :=
  (C8_area_estimate lA).2.2 3 (by decide)

/-- C9: Empty input — packing zero images is not an error: the pack
completes in a single pass without any insertion and returns the
bare root leaf over the minimum canvas `Rectangle(0,0,1,1)` (the
`multipleOf2` estimate never returns a side below 1). -/
theorem C9_empty_input (fuel : Nat) :
    computeAtlasTree (fuel + 1) [] = some (.leaf ⟨0, 0, 1, 1⟩ none none) := by
  have h0 : surfaceAtlas [] = 0 := rfl
  simp only [computeAtlasTree, h0, evm0, computeAtlasTreeLoop, attemptPass, packList,
    Nat.cast_one]

/-- C10: For every tile whose texture packing loop completes, the
`retrieve_geometries` texture path fails with an `AttributeError`
before producing any per-object output arrays, because it invokes
`node_root.insertImages`, a method not defined on the `Node` class
(which only defines `isLeaf`, `insert`, `createAtlasImage`,
`fillAtlasImage` and `updateUv`). -/
theorem C10_missing_insertImages (fuel : Nat) (l : List (Nat × Img)) (t : Node)
    (h : computeAtlasTreeLoop fuel (multipleOf2 (surfaceAtlas l)) l = some t) :
    retrieve_geometries fuel l = .attributeError "insertImages" := by
  unfold retrieve_geometries
  rw [h]
  simp [nodeMethods]

theorem C10_missing_insertImages_witness :
    retrieve_geometries 1 lB = .attributeError "insertImages" :=
  C10_missing_insertImages 1 lB (.leaf ⟨0, 0, 4, 4⟩ (some img44) (some 3)) (by
    have hs : multipleOf2 (surfaceAtlas lB) = 4 := by
      have h16 : surfaceAtlas lB = 16 := by
        norm_num [surfaceAtlas, lB, computeArea, img44_w, img44_h]
      rw [h16, evm16]
    rw [hs]
    simp only [computeAtlasTreeLoop, attemptPass, lB, packList, Nat.cast_ofNat, Node.insert,
      Node.insertM, ev44]
    norm_num)
